import Mathlib

/-!
Verification of the SpliceAI-lookup server (src/server.py).

This file shallowly embeds the core logic of the server:

* the variant-text parser built on the regular expression VARIANT_RE
  (server.py lines 60-68 and 82-87);
* the reverse-complement helper and its lookup table (lines 75-79);
* the score-resolution pipeline process_variant (lines 101-172), with the
  tabix cache and the SpliceAI model scorer injected as black-box
  collaborators, as the specification directs;
* the output interpretation of the UCSC liftOver tool
  (run_UCSC_liftover_tool, lines 240-285) and the variant-format allele
  post-processing of the /liftover/ route (lines 338-345).

Python strings are modelled as Lean String / List Char; Python int() on a
field is modelled by pyInt (ASCII digits with optional sign and surrounding
ASCII whitespace; exotic unicode digits and underscore grouping are not
modelled, no claim depends on them).  A raised-and-unhandled Python
exception is modelled as an Option-none outcome; exceptions that the source
catches are modelled with Except values at the place they are caught.
-/

namespace SpliceAILookup

/-- ASCII whitespace: the characters the regular-expression whitespace
class matches on ASCII input, and the characters Python str.strip removes
there.  The additional Unicode whitespace the Python re module would also
accept is not modelled; no claim depends on it. -/
def isPySpace (c : Char) : Bool :=
  c = ' ' || c = '\t' || c = '\n' || c = '\r' || c = '\x0b' || c = '\x0c'

/-- The separator class of VARIANT_RE between chromosome, position and the
reference allele: dash, whitespace or colon. -/
def isSepChar (c : Char) : Bool :=
  c = '-' || c = ':' || isPySpace c

/-- The separator class of VARIANT_RE before the alternate allele: the
ordinary separators plus the greater-than sign of VCF-style notation. -/
def isSep3Char (c : Char) : Bool :=
  isSepChar c || c = '>'

/-- The chromosome-token character class of VARIANT_RE: digits and the
letters X, Y, M, T and lowercase t. -/
def isChromChar (c : Char) : Bool :=
  c.isDigit || c = 'X' || c = 'Y' || c = 'M' || c = 'T' || c = 't'

/-- The allele character class of VARIANT_RE: the uppercase bases. -/
def isBaseChar (c : Char) : Bool :=
  c = 'A' || c = 'C' || c = 'G' || c = 'T'

/-- Decimal value of a digit string, most significant digit first; the value
Python int() gives a plain digit string. -/
def digitsVal (l : List Char) : Nat :=
  l.foldl (fun acc c => acc * 10 + (c.toNat - 48)) 0

/-- Python str.strip: remove leading and trailing whitespace. -/
def pyStripChars (l : List Char) : List Char :=
  ((l.dropWhile isPySpace).reverse.dropWhile isPySpace).reverse

/-- Digit-string part of Python int(): nonempty, all ASCII digits. -/
def pyIntDigits (l : List Char) : Option Nat :=
  if l.isEmpty then none
  else if l.all Char.isDigit then some (digitsVal l)
  else none

/-- Python int() applied to a string: optional surrounding whitespace, an
optional single sign, then one or more digits; none models ValueError. -/
def pyInt (s : String) : Option Int :=
  match pyStripChars s.data with
  | [] => none
  | c :: rest =>
    if c = '+' then (pyIntDigits rest).map (fun k => (k : Int))
    else if c = '-' then (pyIntDigits rest).map (fun k => -(k : Int))
    else (pyIntDigits (c :: rest)).map (fun k => (k : Int))

/-- The optional literal "chr" at the start of VARIANT_RE.  Dropping the
literal when present is faithful to the backtracking regex because the
chromosome class does not contain the letter c, so a match that skips a
literal "chr" and lets the chromosome token start at that c is impossible. -/
def chrStripped (l : List Char) : List Char :=
  match l with
  | x :: y :: z :: t => if x = 'c' ∧ y = 'h' ∧ z = 'r' then t else x :: y :: z :: t
  | _ => l

/-- The body of VARIANT_RE after the optional "chr" literal, as a
deterministic maximal-munch scanner.  This is faithful to the greedy
backtracking regex because adjacent token classes are disjoint: the
chromosome class, the separator classes, the digit class and the base class
share no characters, so the greedy match of each token is forced and no
backtracking can succeed where maximal munch fails.  A chromosome run longer
than two characters or a digit run longer than nine characters makes every
alternative fail, because the character after a shorter capture would still
belong to the same class and never to the following separator class.
re.match anchors only the start, so trailing text after the alternate allele
is ignored. -/
def parseAfterChr (l : List Char) : Option (List Char × Nat × List Char × List Char) :=
  let c := l.takeWhile isChromChar
  let r1 := l.dropWhile isChromChar
  if c.length = 0 then none
  else if 2 < c.length then none
  else
    let s1 := r1.takeWhile isSepChar
    let r2 := r1.dropWhile isSepChar
    if s1.length = 0 then none
    else
      let p := r2.takeWhile Char.isDigit
      let r3 := r2.dropWhile Char.isDigit
      if p.length = 0 then none
      else if 9 < p.length then none
      else
        let s2 := r3.takeWhile isSepChar
        let r4 := r3.dropWhile isSepChar
        if s2.length = 0 then none
        else
          let rf := r4.takeWhile isBaseChar
          let r5 := r4.dropWhile isBaseChar
          if rf.length = 0 then none
          else
            let s3 := r5.takeWhile isSep3Char
            let r6 := r5.dropWhile isSep3Char
            if s3.length = 0 then none
            else
              let a := r6.takeWhile isBaseChar
              if a.length = 0 then none
              else some (c, digitsVal p, rf, a)

/-- VARIANT_RE.match on a character list: optional "chr" literal, then the
token body. -/
def parseVariantCore (l : List Char) : Option (List Char × Nat × List Char × List Char) :=
  parseAfterChr (chrStripped l)

/-- parse_variant (server.py lines 82-87): match VARIANT_RE against the
text and return the named groups, with the position converted by int().
none models the raised ValueError. -/
def parse_variant (s : String) : Option (String × Nat × String × String) :=
  match parseVariantCore s.data with
  | none => none
  | some (c, n, r, a) => some (String.mk c, n, String.mk r, String.mk a)

/-- The declarative reading of VARIANT_RE used to characterise the parser:
the text decomposes into an optional "chr" literal, a chromosome token of
one or two class characters, a nonempty separator run, one to nine digits,
a separator run, a nonempty base run, a separator-or-gt run, a nonempty
base run, and arbitrary trailing text. -/
def MatchesVariantRE (s : String) : Prop :=
  ∃ pre c s1 p s2 r s3 a rest : List Char,
    s.data = pre ++ c ++ s1 ++ p ++ s2 ++ r ++ s3 ++ a ++ rest ∧
    (pre = [] ∨ pre = ['c', 'h', 'r']) ∧
    (c ≠ [] ∧ c.length ≤ 2 ∧ c.all isChromChar = true) ∧
    (s1 ≠ [] ∧ s1.all isSepChar = true) ∧
    (p ≠ [] ∧ p.length ≤ 9 ∧ p.all Char.isDigit = true) ∧
    (s2 ≠ [] ∧ s2.all isSepChar = true) ∧
    (r ≠ [] ∧ r.all isBaseChar = true) ∧
    (s3 ≠ [] ∧ s3.all isSep3Char = true) ∧
    (a ≠ [] ∧ a.all isBaseChar = true)

/-- The chromosome names the specification lists for the parser contract:
1-22, X, Y, M and T/MT. -/
def specChromosomeTokens : List String :=
  ["1", "2", "3", "4", "5", "6", "7", "8", "9", "10", "11", "12", "13", "14",
   "15", "16", "17", "18", "19", "20", "21", "22", "X", "Y", "M", "T", "MT"]

/-- REVERSE_COMPLEMENT_MAP (server.py line 75): the base-pairing table
dict(zip("ACGTN", "TGCAN")); none models the KeyError raised on any other
character. -/
def REVERSE_COMPLEMENT_MAP (c : Char) : Option Char :=
  if c = 'A' then some 'T'
  else if c = 'C' then some 'G'
  else if c = 'G' then some 'C'
  else if c = 'T' then some 'A'
  else if c = 'N' then some 'N'
  else none

/-- Map REVERSE_COMPLEMENT_MAP over a character list, failing if any single
lookup fails, as the list comprehension in reverse_complement does. -/
def compList : List Char → Option (List Char)
  | [] => some []
  | c :: rest =>
    match REVERSE_COMPLEMENT_MAP c, compList rest with
    | some d, some ds => some (d :: ds)
    | _, _ => none

/-- reverse_complement (server.py lines 78-79): reverse the sequence, then
complement every base; none models the KeyError on a character outside
ACGTN (and the TypeError when the argument is not a sequence at all). -/
def reverse_complement (s : String) : Option String :=
  (compList s.data.reverse).map (fun l => String.mk l)

/-- The variant-format allele post-processing of the /liftover/ route
(server.py lines 338-345): copy ref and alt to the outputs, then, exactly
when the output strand is "-", replace both with their reverse complements.
The inputs are the raw ref/alt request parameters (none when the caller
omitted them, as params.get returns None).  The overall none models the
unhandled TypeError of reverse_complement(None) or the unhandled KeyError
on an allele character outside ACGTN; the route has no handler around this
step, so such a request dies with an exception instead of a structured
error response. -/
def run_liftover_variant_postprocessing (ref? alt? : Option String)
    (output_strand : String) : Option (Option String × Option String) :=
  let output_ref := ref?
  let output_alt := alt?
  if output_strand = "-" then
    match output_ref with
    | none => none
    | some r =>
      match reverse_complement r with
      | none => none
      | some r2 =>
        match output_alt with
        | none => none
        | some a =>
          match reverse_complement a with
          | none => none
          | some a2 => some (some r2, some a2)
  else some (output_ref, output_alt)

/-- Python str.split on a single separator character: splits at every
occurrence and keeps empty fields, and the split of any string is nonempty
(the empty string splits to one empty field). -/
def pySplitCh (sep : Char) : List Char → List (List Char)
  | [] => [[]]
  | c :: rest =>
    match pySplitCh sep rest with
    | [] => [[]]
    | f :: fs => if c = sep then [] :: f :: fs else (c :: f) :: fs

/-- line.split of a tab character, on strings. -/
def pySplitTab (s : String) : List String :=
  (pySplitCh '\t' s.data).map (fun l => String.mk l)

/-- Everything after the first pipe character, none when there is none:
s.index of the pipe raises ValueError on absence, and the slice from the
following index otherwise. -/
def dropThroughPipe : List Char → Option (List Char)
  | [] => none
  | c :: rest => if c = '|' then some rest else dropThroughPipe rest

/-- One element of the allele-dropping comprehension at server.py line 161. -/
def pyStripAllele (s : String) : Option String :=
  (dropThroughPipe s.data).map (fun l => String.mk l)

/-- The allele-dropping comprehension over the whole score list; none models
the unhandled ValueError when some score string has no pipe. -/
def mapStrip : List String → Option (List String)
  | [] => some []
  | s :: rest =>
    match pyStripAllele s, mapStrip rest with
    | some t, some ts => some (t :: ts)
    | _, _ => none

/-- A digit character, for rendering a position the way Python str() does. -/
def digitToChar : Nat → Char
  | 0 => '0'
  | 1 => '1'
  | 2 => '2'
  | 3 => '3'
  | 4 => '4'
  | 5 => '5'
  | 6 => '6'
  | 7 => '7'
  | 8 => '8'
  | _ => '9'

/-- Decimal digits of a positive number, most significant first, with
explicit fuel for structural recursion; fuel n suffices for n itself. -/
def natReprAux : Nat → Nat → List Char
  | 0, _ => []
  | _ + 1, 0 => []
  | fuel + 1, n + 1 => natReprAux fuel ((n + 1) / 10) ++ [digitToChar ((n + 1) % 10)]

/-- Decimal rendering of a natural number, as Python str() renders the
variant position inside formatted messages. -/
def natRepr (n : Nat) : String :=
  if n = 0 then "0" else String.mk (natReprAux n n)

/-- SPLICEAI_DEFAULT_DISTANCE (server.py line 53). -/
def SPLICEAI_DEFAULT_DISTANCE : Int := 50

/-- VariantRecord (server.py lines 90-98): the record handed to the model
scorer, with a single alternate allele. -/
structure VariantRecord where
  chrom : String
  pos : Nat
  ref : String
  alts : List String
deriving DecidableEq

/-- The dictionary process_variant returns: either the error shape
(variant plus message) or the full result shape.  source is an Option
because the source variable can remain None on one path. -/
inductive ProcessResult where
  | err (variant : String) (error : String)
  | ok (variant genome_version chrom : String) (pos : Nat) (ref alt : String)
       (scores : List String) (source : Option String)
deriving DecidableEq

/-- The cache key derived at server.py lines 120-124: masking, variant
class and assembly, with None components for unexpected mask or genome
values. -/
def derive_key (spliceai_mask : Int) (ref alt : String) (genome_version : String) :
    Option String × String × Option String :=
  (if spliceai_mask = 1 then some "masked"
   else if spliceai_mask = 0 then some "raw" else none,
   if ref.length = 1 ∧ alt.length = 1 then "snv" else "indel",
   if genome_version = "37" then some "hg19"
   else if genome_version = "38" then some "hg38" else none)

/-- The injected score cache of the specification: fetch takes the derived
key, the chromosome and the half-open range and either raises (error, for
example the KeyError of a missing backing file) or yields the overlapping
records in order together with a flag saying whether the underlying
iterator raised after yielding them (an I/O fault during iteration). -/
def CacheFetch : Type :=
  (Option String × String × Option String) → String → Int → Int →
    Except Unit (List String × Bool)

/-- The injected model scorer of the specification: get_delta_scores
applied to the record, the annotator selected by genome version, the
distance and the mask; the error carries the text of any raised exception
(already formatted as type plus message). -/
def ModelScorer : Type :=
  VariantRecord → String → Int → Int → Except String (List String)

/-- Processing of one cached line inside the fetch loop (server.py lines
127-131): split on tabs, then the short-circuit conjunction
fields[0] == chrom and int(fields[1]) == pos and fields[3] == ref and
fields[4] == alt, appending fields[7] on full success.  error models an
IndexError on a missing field or the ValueError of int(); field 0 always
exists because split never returns an empty list. -/
def cacheLine (chrom : String) (pos : Nat) (ref alt : String) (line : String) :
    Except Unit (Option String) :=
  let fields := pySplitTab line
  if fields.getD 0 "" = chrom then
    match fields.get? 1 with
    | none => .error ()
    | some f1 =>
      match pyInt f1 with
      | none => .error ()
      | some n =>
        if n = (pos : Int) then
          match fields.get? 3 with
          | none => .error ()
          | some f3 =>
            if f3 = ref then
              match fields.get? 4 with
              | none => .error ()
              | some f4 =>
                if f4 = alt then
                  match fields.get? 7 with
                  | none => .error ()
                  | some f7 => .ok (some f7)
                else .ok none
            else .ok none
        else .ok none
  else .ok none

/-- True when processing the line raises no exception. -/
def cacheLineOk (chrom : String) (pos : Nat) (ref alt : String) (line : String) : Bool :=
  match cacheLine chrom pos ref alt line with
  | .error _ => false
  | .ok _ => true

/-- The for-loop over fetched records: accumulate the info fields of exact
matches in order; on the first line that raises, stop with the scores
collected so far and the exception flag set. -/
def cacheLoop (chrom : String) (pos : Nat) (ref alt : String) (acc : List String) :
    List String → List String × Bool
  | [] => (acc, false)
  | line :: rest =>
    match cacheLine chrom pos ref alt line with
    | .error _ => (acc, true)
    | .ok none => cacheLoop chrom pos ref alt acc rest
    | .ok (some s) => cacheLoop chrom pos ref alt (acc ++ [s]) rest

/-- The whole guarded cache attempt (server.py lines 125-137): call fetch
over the window from pos-1 to pos+1, run the loop, and set source to
lookup only when the loop finished without an exception, the iterator did
not raise afterwards, and at least one score was collected.  Every raised
exception is caught here: the phase always returns, with whatever scores
were accumulated first and with source left None on the exception paths. -/
def cache_phase (fetch : CacheFetch) (key : Option String × String × Option String)
    (chrom : String) (pos : Nat) (ref alt : String) : List String × Option String :=
  match fetch key chrom ((pos : Int) - 1) ((pos : Int) + 1) with
  | .error _ => ([], none)
  | .ok (lines, interrupted) =>
    match cacheLoop chrom pos ref alt [] lines with
    | (scores, true) => (scores, none)
    | (scores, false) =>
      if interrupted then (scores, none)
      else (scores, if scores.isEmpty then none else some "lookup")

/-- The model fallback (server.py lines 139-172 restricted to the case of
empty cache scores): call the scorer, turn a raised exception into an
error result, report the unavailable-score error when the scorer returns
nothing, and otherwise strip the allele field from every score and return
the result with source computed. -/
def model_path (scorer : ModelScorer) (variant genome_version : String)
    (distance mask : Int) (chrom : String) (pos : Nat) (ref alt : String) :
    Option ProcessResult :=
  match scorer ⟨chrom, pos, ref, [alt]⟩ genome_version distance mask with
  | .error e => some (.err variant ("ERROR: " ++ e))
  | .ok scores =>
    if scores.isEmpty then
      some (.err variant ("ERROR: Unable to compute scores for " ++ variant ++
        ". Please check that the genome version and reference allele are correct, and the variant is either exonic or intronic in Gencode v24."))
    else
      (mapStrip scores).map
        (fun st => .ok variant genome_version chrom pos ref alt st (some "computed"))

/-- process_variant (server.py lines 101-172) with the cache and the model
scorer injected: parse, reject complex indels, attempt the cache only when
the allele lengths allow it and the distance is the default, fall back to
the model only when no cache scores were collected, and finally strip the
allele field from every score.  The outer none models the one unhandled
exception of this function, the ValueError of the allele strip on a score
without a pipe. -/
def process_variant (fetch : CacheFetch) (scorer : ModelScorer)
    (variant genome_version : String) (spliceai_distance spliceai_mask : Int) :
    Option ProcessResult :=
  match parse_variant variant with
  | none => some (.err variant ("ERROR: Unable to parse variant: " ++ variant))
  | some (chrom, pos, ref, alt) =>
    if 1 < ref.length ∧ 1 < alt.length then
      some (.err variant ("ERROR: SpliceAI does not currently support complex InDels like "
        ++ chrom ++ "-" ++ natRepr pos ++ "-" ++ ref ++ "-" ++ alt))
    else
      let cp :=
        if (ref.length ≤ 5 ∨ alt.length ≤ 2) ∧ spliceai_distance = SPLICEAI_DEFAULT_DISTANCE then
          cache_phase fetch (derive_key spliceai_mask ref alt genome_version) chrom pos ref alt
        else ([], none)
      if cp.1.isEmpty then
        model_path scorer variant genome_version spliceai_distance spliceai_mask chrom pos ref alt
      else
        (mapStrip cp.1).map
          (fun st => .ok variant genome_version chrom pos ref alt st cp.2)

/-- The exact-match criterion of the specification on one fetched record:
the chrom, pos, ref and alt fields all equal the queried variant. -/
def isExactMatch (chrom : String) (pos : Nat) (ref alt : String) (line : String) : Bool :=
  let fields := pySplitTab line
  decide (fields.getD 0 "" = chrom) && decide (pyInt (fields.getD 1 "") = some (pos : Int)) &&
    decide (fields.getD 3 "" = ref) && decide (fields.getD 4 "" = alt)

/-- The info fields of the exactly matching records, in fetch order. -/
def exactMatchScores (chrom : String) (pos : Nat) (ref alt : String)
    (lines : List String) : List String :=
  (lines.filter (fun l => isExactMatch chrom pos ref alt l)).map
    (fun l => (pySplitTab l).getD 7 "")

/-- One well-formed cache record with the given fields, as a tab-joined
line in the eight-column layout of the cache files. -/
def mkCacheLine (chrom : String) (pos : Nat) (ref alt info : String) : String :=
  String.mk (chrom.data ++ '\t' :: (natRepr pos).data ++ '\t' :: '.' :: '\t' :: ref.data
    ++ '\t' :: alt.data ++ '\t' :: '.' :: '\t' :: '.' :: '\t' :: info.data)

/-- Python str.replace of the pattern chr with the empty string: remove
every non-overlapping occurrence, left to right. -/
def removeChrOcc : List Char → List Char
  | [] => []
  | 'c' :: 'h' :: 'r' :: t => removeChrOcc t
  | c :: t => c :: removeChrOcc t

/-- The characters of the first line of a file, as readline reads it (the
trailing newline is immaterial because the reason text is stripped). -/
def firstLineChars (l : List Char) : List Char :=
  l.takeWhile (fun c => c ≠ '\n')

/-- Python replace of the hash character with the empty string. -/
def removeHashes (l : List Char) : List Char :=
  l.filter (fun c => c ≠ '#')

/-- The outcome of run_UCSC_liftover_tool: a mapped result, a ValueError
raised after the with-block with a formatted failure message, or the
re-raised wrapper of an exception inside the try (for example an int()
failure on a mapped field), whose Python-specific text is not modelled. -/
inductive LiftoverInterp where
  | success (chrom output_chrom : String) (output_start output_end : Int)
      (output_strand : String)
  | failure (msg : String)
  | pyError
deriving DecidableEq

/-- run_UCSC_liftover_tool (server.py lines 240-285), with the external
liftOver process abstracted by the contents it leaves in the mapped and
unmapped output files: validate the direction, normalise the chromosome to
a single chr label, strip and tab-split the mapped output, and succeed on
more than five fields; otherwise read the first line of the unmapped file,
remove every hash character, strip whitespace, and fail with that reason,
or with the generic unknown-reasons message when the reason comes out
empty. -/
def run_UCSC_liftover_tool (hg chrom0 : String) (mapped unmapped : String) :
    LiftoverInterp :=
  if hg ≠ "hg19-to-hg38" ∧ hg ≠ "hg38-to-hg19" then
    .failure ("Unexpected hg arg value: " ++ hg)
  else
    let chrom := "chr" ++ String.mk (removeChrOcc chrom0.data)
    let result_fields := pySplitTab (String.mk (pyStripChars mapped.data))
    if 5 < result_fields.length then
      match pyInt (result_fields.getD 1 ""), pyInt (result_fields.getD 2 "") with
      | some s, some e =>
        .success chrom (result_fields.getD 0 "") s e (result_fields.getD 5 "")
      | _, _ => .pyError
    else
      let reason := String.mk (pyStripChars (removeHashes (firstLineChars unmapped.data)))
      if reason = "" then .failure "Lift over failed for unknown reasons"
      else .failure ("Lift over failed: " ++ reason)

/-- The reason transformation exactly as the specification phrases it:
strip the leading hash characters of the unmapped-output text. -/
def spec_leading_hash_stripped (s : String) : String :=
  String.mk (s.data.dropWhile (fun c => c = '#'))

/-- Rebuilding a string from its own characters gives the string back. -/
theorem mk_data (s : String) : String.mk s.data = s := rfl

/-- The pairing table is a partial involution: whenever it maps c to d it
also maps d back to c. -/
theorem comp_comp {c d : Char} (h : REVERSE_COMPLEMENT_MAP c = some d) :
    REVERSE_COMPLEMENT_MAP d = some c := by
  unfold REVERSE_COMPLEMENT_MAP at h ⊢
  split_ifs at h with h1 h2 h3 h4 h5 <;>
    simp only [Option.some.injEq] at h <;> subst_vars <;> simp

/-- Mapping the table over an append succeeds componentwise. -/
theorem compList_append {l1 l2 m1 m2 : List Char} (h1 : compList l1 = some m1)
    (h2 : compList l2 = some m2) : compList (l1 ++ l2) = some (m1 ++ m2) := by
  induction l1 generalizing m1 with
  | nil =>
    simp only [compList, Option.some.injEq] at h1
    subst h1; simpa using h2
  | cons c t ih =>
    simp only [compList] at h1
    cases hm : REVERSE_COMPLEMENT_MAP c with
    | none => rw [hm] at h1; exact absurd h1 (by simp)
    | some d =>
      rw [hm] at h1
      cases ht : compList t with
      | none => rw [ht] at h1; exact absurd h1 (by simp)
      | some ts =>
        rw [ht] at h1
        simp only [Option.some.injEq] at h1
        subst h1
        simp [compList, hm, ih ht]

/-- Reading the mapped list back through the table recovers the input. -/
theorem compList_swap {l m : List Char} (h : compList l = some m) :
    compList m = some l := by
  induction l generalizing m with
  | nil =>
    simp only [compList, Option.some.injEq] at h
    subst h; rfl
  | cons c t ih =>
    simp only [compList] at h
    cases hm : REVERSE_COMPLEMENT_MAP c with
    | none => rw [hm] at h; exact absurd h (by simp)
    | some d =>
      rw [hm] at h
      cases ht : compList t with
      | none => rw [ht] at h; exact absurd h (by simp)
      | some ts =>
        rw [ht] at h
        simp only [Option.some.injEq] at h
        subst h
        simp only [compList, comp_comp hm, ih ht]

/-- The table map commutes with list reversal. -/
theorem compList_reverse {l m : List Char} (h : compList l = some m) :
    compList l.reverse = some m.reverse := by
  induction l generalizing m with
  | nil =>
    simp only [compList, Option.some.injEq] at h
    subst h; rfl
  | cons c t ih =>
    simp only [compList] at h
    cases hm : REVERSE_COMPLEMENT_MAP c with
    | none => rw [hm] at h; exact absurd h (by simp)
    | some d =>
      rw [hm] at h
      cases ht : compList t with
      | none => rw [ht] at h; exact absurd h (by simp)
      | some ts =>
        rw [ht] at h
        simp only [Option.some.injEq] at h
        subst h
        have hc : compList [c] = some [d] := by
          simp only [compList, hm]
        rw [List.reverse_cons, List.reverse_cons]
        exact compList_append (ih ht) hc

/-- On a list of valid bases the table map succeeds. -/
theorem compList_isSome_of_valid {l : List Char}
    (h : ∀ c ∈ l, c ∈ (['A', 'C', 'G', 'T', 'N'] : List Char)) :
    ∃ m, compList l = some m := by
  induction l with
  | nil => exact ⟨[], rfl⟩
  | cons c t ih =>
    obtain ⟨m, hm⟩ := ih (fun x hx => h x (List.mem_cons_of_mem c hx))
    have hc := h c (List.mem_cons_self c t)
    simp only [List.mem_cons, List.not_mem_nil, or_false] at hc
    have : ∃ d, REVERSE_COMPLEMENT_MAP c = some d := by
      rcases hc with rfl | rfl | rfl | rfl | rfl
      · exact ⟨'T', rfl⟩
      · exact ⟨'G', rfl⟩
      · exact ⟨'C', rfl⟩
      · exact ⟨'A', rfl⟩
      · exact ⟨'N', rfl⟩
    obtain ⟨d, hd⟩ := this
    exact ⟨d :: m, by simp only [compList, hd, hm]⟩

/-- A single invalid character makes the table map fail. -/
theorem compList_none_of_mem {l : List Char} {c : Char} (hc : c ∈ l)
    (hn : REVERSE_COMPLEMENT_MAP c = none) : compList l = none := by
  induction l with
  | nil => cases hc
  | cons x t ih =>
    rcases List.mem_cons.mp hc with rfl | hmem
    · simp only [compList, hn]
    · simp only [compList, ih hmem]
      cases REVERSE_COMPLEMENT_MAP x <;> rfl

/-- C8: for every sequence over the alphabet A, C, G, T, N, applying
reverse_complement twice gives the sequence back. -/
theorem reverse_complement_involution (s : String)
    (h : ∀ c ∈ s.data, c ∈ (['A', 'C', 'G', 'T', 'N'] : List Char)) :
    (reverse_complement s).bind reverse_complement = some s := by
  have hrev : ∀ c ∈ s.data.reverse, c ∈ (['A', 'C', 'G', 'T', 'N'] : List Char) :=
    fun c hc => h c (List.mem_reverse.mp hc)
  obtain ⟨m, hm⟩ := compList_isSome_of_valid hrev
  have h2 : compList m = some s.data.reverse := compList_swap hm
  have h3 : compList m.reverse = some s.data.reverse.reverse := compList_reverse h2
  rw [List.reverse_reverse] at h3
  have hstep1 : reverse_complement s = some (String.mk m) := by
    unfold reverse_complement; rw [hm]; rfl
  have hstep2 : reverse_complement (String.mk m) = some s := by
    show (compList m.reverse).map (fun l => String.mk l) = some s
    rw [h3]; rfl
  rw [hstep1]
  exact hstep2

/-- Witness for C8 at a concrete sequence. -/
theorem reverse_complement_involution_witness :
    (reverse_complement "ACGTN").bind reverse_complement = some "ACGTN" :=
  reverse_complement_involution "ACGTN" (by decide)

/-- C2: a variant-format liftover with both alleles present keeps ref and
alt unchanged on the plus strand (and any strand other than minus), and
replaces both by their reverse complements exactly when the output strand
is minus. -/
theorem run_liftover_strand_flip (ref alt rcRef rcAlt : String)
    (h1 : reverse_complement ref = some rcRef)
    (h2 : reverse_complement alt = some rcAlt) :
    run_liftover_variant_postprocessing (some ref) (some alt) "+" = some (some ref, some alt)
    ∧ run_liftover_variant_postprocessing (some ref) (some alt) "-"
        = some (some rcRef, some rcAlt)
    ∧ ∀ strand, strand ≠ "-" →
        run_liftover_variant_postprocessing (some ref) (some alt) strand
          = some (some ref, some alt) := by
  refine ⟨?_, ?_, ?_⟩
  · simp [run_liftover_variant_postprocessing]
  · simp [run_liftover_variant_postprocessing, h1, h2]
  · intro strand hs
    simp [run_liftover_variant_postprocessing, hs]

/-- Witness for C2: the minus-strand example of the specification, ref C
and alt G becoming G and C. -/
theorem run_liftover_strand_flip_witness :
    run_liftover_variant_postprocessing (some "C") (some "G") "-"
      = some (some "G", some "C") :=
  (run_liftover_strand_flip "C" "G" "G" "C" (by decide) (by decide)).2.1

/-- C10: the reverse-complement table is defined exactly on A, C, G, T, N;
any string containing another character makes reverse_complement fail with
a lookup error; and a minus-strand variant liftover with a missing ref or
alt parameter, or with an allele containing a character outside the
alphabet, dies in the allele post-processing step instead of producing a
structured result. -/
theorem reverse_complement_domain_liftover_crash :
    (∀ c : Char, REVERSE_COMPLEMENT_MAP c = none ↔
        c ∉ (['A', 'C', 'G', 'T', 'N'] : List Char))
    ∧ (∀ s : String, (∃ c ∈ s.data, REVERSE_COMPLEMENT_MAP c = none) →
        reverse_complement s = none)
    ∧ (∀ ref? alt? : Option String,
        (ref? = none ∨ alt? = none ∨
          (∃ r, ref? = some r ∧ reverse_complement r = none) ∨
          (∃ a, alt? = some a ∧ reverse_complement a = none)) →
        run_liftover_variant_postprocessing ref? alt? "-" = none) := by
  refine ⟨?_, ?_, ?_⟩
  · intro c
    constructor
    · intro h hc
      simp only [List.mem_cons, List.not_mem_nil, or_false] at hc
      rcases hc with rfl | rfl | rfl | rfl | rfl <;>
        exact absurd h (by simp [REVERSE_COMPLEMENT_MAP])
    · intro h
      unfold REVERSE_COMPLEMENT_MAP
      split_ifs with h1 h2 h3 h4 h5 <;> subst_vars <;> simp_all
  · intro s ⟨c, hc, hn⟩
    unfold reverse_complement
    rw [compList_none_of_mem (List.mem_reverse.mpr hc) hn]
    rfl
  · intro ref? alt? h
    rcases h with rfl | rfl | ⟨r, rfl, hr⟩ | ⟨a, rfl, ha⟩
    · simp [run_liftover_variant_postprocessing]
    · cases ref? with
      | none => simp [run_liftover_variant_postprocessing]
      | some r =>
        simp only [run_liftover_variant_postprocessing, if_pos rfl]
        cases reverse_complement r <;> simp
    · simp [run_liftover_variant_postprocessing, hr]
    · cases ref? with
      | none => simp [run_liftover_variant_postprocessing]
      | some r =>
        simp only [run_liftover_variant_postprocessing, if_pos rfl]
        cases reverse_complement r with
        | none => simp
        | some r2 => simp [ha]

/-- Witness for C10: a lowercase base makes reverse_complement fail, and a
minus-strand variant liftover with no ref parameter dies. -/
theorem reverse_complement_domain_liftover_crash_witness :
    reverse_complement "aC" = none ∧
      run_liftover_variant_postprocessing none (some "G") "-" = none :=
  ⟨reverse_complement_domain_liftover_crash.2.1 "aC" ⟨'a', by decide, by decide⟩,
   reverse_complement_domain_liftover_crash.2.2 none (some "G") (Or.inl rfl)⟩

/-- Bool list-all gives pointwise membership facts. -/
theorem all_mem {q : Char → Bool} {xs : List Char} (h : xs.all q = true) :
    ∀ x ∈ xs, q x = true := fun x hx => by
  simpa using List.all_eq_true.mp h x hx

/-- A list all of whose elements satisfy the predicate is its own
takeWhile. -/
theorem takeWhile_of_all {q : Char → Bool} {xs : List Char} (h : ∀ x ∈ xs, q x = true) :
    xs.takeWhile q = xs := by
  induction xs with
  | nil => rfl
  | cons x t ih =>
    rw [List.takeWhile_cons, h x (List.mem_cons_self x t), if_pos rfl,
      ih (fun y hy => h y (List.mem_cons_of_mem x hy))]

/-- Membership in the separator class, spelled out. -/
theorem sep_char_cases {c : Char} (h : isSepChar c = true) :
    c = '-' ∨ c = ':' ∨ c = ' ' ∨ c = '\t' ∨ c = '\n' ∨ c = '\r' ∨ c = '\x0b' ∨ c = '\x0c' := by
  simpa [isSepChar, isPySpace, or_assoc] using h

/-- Membership in the base class, spelled out. -/
theorem base_char_cases {c : Char} (h : isBaseChar c = true) :
    c = 'A' ∨ c = 'C' ∨ c = 'G' ∨ c = 'T' := by
  simpa [isBaseChar, or_assoc] using h

/-- A separator character is not a chromosome-class character. -/
theorem sep_not_chrom {c : Char} (h : isSepChar c = true) : isChromChar c = false := by
  rcases sep_char_cases h with rfl | rfl | rfl | rfl | rfl | rfl | rfl | rfl <;> decide

/-- A separator character is not a digit. -/
theorem sep_not_digit {c : Char} (h : isSepChar c = true) : c.isDigit = false := by
  rcases sep_char_cases h with rfl | rfl | rfl | rfl | rfl | rfl | rfl | rfl <;> decide

/-- A digit is not a separator character. -/
theorem digit_not_sep {c : Char} (h : c.isDigit = true) : isSepChar c = false := by
  cases hs : isSepChar c
  · rfl
  · rw [sep_not_digit hs] at h; cases h

/-- A base character is not a separator character. -/
theorem base_not_sep {c : Char} (h : isBaseChar c = true) : isSepChar c = false := by
  rcases base_char_cases h with rfl | rfl | rfl | rfl <;> decide

/-- A base character is not in the extended separator class either. -/
theorem base_not_sep3 {c : Char} (h : isBaseChar c = true) : isSep3Char c = false := by
  rcases base_char_cases h with rfl | rfl | rfl | rfl <;> decide

/-- An extended-separator character is not a base character. -/
theorem sep3_not_base {c : Char} (h : isSep3Char c = true) : isBaseChar c = false := by
  have h2 : isSepChar c = true ∨ c = '>' := by
    simpa [isSep3Char, or_assoc] using h
  rcases h2 with hs | rfl
  · rcases sep_char_cases hs with rfl | rfl | rfl | rfl | rfl | rfl | rfl | rfl <;> decide
  · decide

/-- An ordinary separator also belongs to the extended separator class. -/
theorem sep_imp_sep3 {c : Char} (h : isSepChar c = true) : isSep3Char c = true := by
  simp [isSep3Char, h]

/-- A chromosome-class character is not the letter c, so a text without
the chr literal never loses its first character to the optional literal. -/
theorem chrom_ne_c {c : Char} (h : isChromChar c = true) : c ≠ 'c' := by
  intro hc
  rw [hc] at h
  exact absurd h (by decide)

/-- Maximal munch across a boundary: a block all of whose characters
satisfy the scanned class, followed by a list starting with a character
outside the class, splits exactly at the boundary. -/
theorem takeWhile_append_stop {p : Char → Bool} {xs : List Char} {y : Char} {t : List Char}
    (h1 : ∀ x ∈ xs, p x = true) (h2 : p y = false) :
    (xs ++ y :: t).takeWhile p = xs ∧ (xs ++ y :: t).dropWhile p = y :: t := by
  constructor
  · rw [List.takeWhile_append_of_pos h1]
    simp [List.takeWhile_cons, h2]
  · rw [List.dropWhile_append_of_pos h1]
    simp [List.dropWhile_cons, h2]

/-- The boundary lemma with the successor list given by an arbitrary
decomposition into head and tail. -/
theorem takeWhile_append_stop2 {p : Char → Bool} {xs ys : List Char}
    (h1 : ∀ x ∈ xs, p x = true) (h2 : ∃ y t, ys = y :: t ∧ p y = false) :
    (xs ++ ys).takeWhile p = xs ∧ (xs ++ ys).dropWhile p = ys := by
  obtain ⟨y, t, rfl, hy⟩ := h2
  exact takeWhile_append_stop h1 hy

/-- Running the scanner body on a well-formed decomposition: each token is
captured exactly, the position is the decimal value of the digit run, and
the alternate allele is the maximal base run at the tail. -/
theorem parseAfterChr_decomp (c s1 p s2 r s3 a rest : List Char)
    (hc1 : c ≠ []) (hc2 : c.length ≤ 2) (hc3 : ∀ x ∈ c, isChromChar x = true)
    (hs1a : s1 ≠ []) (hs1b : ∀ x ∈ s1, isSepChar x = true)
    (hp1 : p ≠ []) (hp2 : p.length ≤ 9) (hp3 : ∀ x ∈ p, Char.isDigit x = true)
    (hs2a : s2 ≠ []) (hs2b : ∀ x ∈ s2, isSepChar x = true)
    (hr1 : r ≠ []) (hr2 : ∀ x ∈ r, isBaseChar x = true)
    (hs3a : s3 ≠ []) (hs3b : ∀ x ∈ s3, isSep3Char x = true)
    (ha1 : a ≠ []) (ha2 : ∀ x ∈ a, isBaseChar x = true) :
    parseAfterChr (c ++ s1 ++ p ++ s2 ++ r ++ s3 ++ a ++ rest) =
      some (c, digitsVal p, r, (a ++ rest).takeWhile isBaseChar) := by
  obtain ⟨y1, t1, rfl⟩ := List.exists_cons_of_ne_nil hs1a
  obtain ⟨y2, t2, rfl⟩ := List.exists_cons_of_ne_nil hp1
  obtain ⟨y3, t3, rfl⟩ := List.exists_cons_of_ne_nil hs2a
  obtain ⟨y4, t4, rfl⟩ := List.exists_cons_of_ne_nil hr1
  obtain ⟨y5, t5, rfl⟩ := List.exists_cons_of_ne_nil hs3a
  obtain ⟨y6, t6, rfl⟩ := List.exists_cons_of_ne_nil ha1
  simp only [List.append_assoc]
  set Z6 : List Char := (y6 :: t6) ++ rest with hZ6
  set Z5 : List Char := (y5 :: t5) ++ Z6 with hZ5
  set Z4 : List Char := (y4 :: t4) ++ Z5 with hZ4
  set Z3 : List Char := (y3 :: t3) ++ Z4 with hZ3
  set Z2 : List Char := (y2 :: t2) ++ Z3 with hZ2
  set Z1 : List Char := (y1 :: t1) ++ Z2 with hZ1
  have d1 : (c ++ Z1).takeWhile isChromChar = c ∧ (c ++ Z1).dropWhile isChromChar = Z1 :=
    takeWhile_append_stop2 hc3
      ⟨y1, t1 ++ Z2, by rw [hZ1, List.cons_append],
        sep_not_chrom (hs1b y1 (List.mem_cons_self y1 t1))⟩
  have d2 : ((y1 :: t1) ++ Z2).takeWhile isSepChar = y1 :: t1 ∧
      ((y1 :: t1) ++ Z2).dropWhile isSepChar = Z2 :=
    takeWhile_append_stop2 hs1b
      ⟨y2, t2 ++ Z3, by rw [hZ2, List.cons_append],
        digit_not_sep (hp3 y2 (List.mem_cons_self y2 t2))⟩
  rw [← hZ1] at d2
  have d3 : ((y2 :: t2) ++ Z3).takeWhile Char.isDigit = y2 :: t2 ∧
      ((y2 :: t2) ++ Z3).dropWhile Char.isDigit = Z3 :=
    takeWhile_append_stop2 hp3
      ⟨y3, t3 ++ Z4, by rw [hZ3, List.cons_append],
        sep_not_digit (hs2b y3 (List.mem_cons_self y3 t3))⟩
  rw [← hZ2] at d3
  have d4 : ((y3 :: t3) ++ Z4).takeWhile isSepChar = y3 :: t3 ∧
      ((y3 :: t3) ++ Z4).dropWhile isSepChar = Z4 :=
    takeWhile_append_stop2 hs2b
      ⟨y4, t4 ++ Z5, by rw [hZ4, List.cons_append],
        base_not_sep (hr2 y4 (List.mem_cons_self y4 t4))⟩
  rw [← hZ3] at d4
  have d5 : ((y4 :: t4) ++ Z5).takeWhile isBaseChar = y4 :: t4 ∧
      ((y4 :: t4) ++ Z5).dropWhile isBaseChar = Z5 :=
    takeWhile_append_stop2 hr2
      ⟨y5, t5 ++ Z6, by rw [hZ5, List.cons_append],
        sep3_not_base (hs3b y5 (List.mem_cons_self y5 t5))⟩
  rw [← hZ4] at d5
  have d6 : ((y5 :: t5) ++ Z6).takeWhile isSep3Char = y5 :: t5 ∧
      ((y5 :: t5) ++ Z6).dropWhile isSep3Char = Z6 :=
    takeWhile_append_stop2 hs3b
      ⟨y6, t6 ++ rest, by rw [hZ6, List.cons_append],
        base_not_sep3 (ha2 y6 (List.mem_cons_self y6 t6))⟩
  rw [← hZ5] at d6
  have hlast : Z6.takeWhile isBaseChar = y6 :: ((t6 ++ rest).takeWhile isBaseChar) := by
    rw [hZ6, List.cons_append]
    simp [List.takeWhile_cons, ha2 y6 (List.mem_cons_self y6 t6)]
  have hc0 : ¬ (c.length = 0) := fun hh => hc1 (List.length_eq_zero.mp hh)
  have hc2' : ¬ (2 < c.length) := by omega
  have hp9 : ¬ (9 < (y2 :: t2).length) := by omega
  have hp8 : t2.length ≤ 8 := by
    simp only [List.length_cons] at hp2
    omega
  simp only [parseAfterChr, d1.1, d1.2, d2.1, d2.2, d3.1, d3.2, d4.1, d4.2,
    d5.1, d5.2, d6.1, d6.2, hlast]
  simp [hc0, hc2', hp9, hp8]

/-- The scanner body succeeds only on a well-formed decomposition, with
the captures determined by maximal munch. -/
theorem parseAfterChr_some_decomp {l c r a : List Char} {n : Nat}
    (h : parseAfterChr l = some (c, n, r, a)) :
    ∃ s1 p s2 s3 rest : List Char,
      l = c ++ (s1 ++ (p ++ (s2 ++ (r ++ (s3 ++ (a ++ rest)))))) ∧
      c ≠ [] ∧ c.length ≤ 2 ∧ c.all isChromChar = true ∧
      s1 ≠ [] ∧ s1.all isSepChar = true ∧
      p ≠ [] ∧ p.length ≤ 9 ∧ p.all Char.isDigit = true ∧
      s2 ≠ [] ∧ s2.all isSepChar = true ∧
      r ≠ [] ∧ r.all isBaseChar = true ∧
      s3 ≠ [] ∧ s3.all isSep3Char = true ∧
      a ≠ [] ∧ a.all isBaseChar = true ∧
      n = digitsVal p := by
  simp only [parseAfterChr] at h
  split at h
  · exact absurd h (by simp)
  split at h
  · exact absurd h (by simp)
  split at h
  · exact absurd h (by simp)
  split at h
  · exact absurd h (by simp)
  split at h
  · exact absurd h (by simp)
  split at h
  · exact absurd h (by simp)
  split at h
  · exact absurd h (by simp)
  split at h
  · exact absurd h (by simp)
  split at h
  · exact absurd h (by simp)
  rename_i hg1 hg2 hg3 hg4 hg5 hg6 hg7 hg8 hg9
  simp only [Option.some.injEq, Prod.mk.injEq] at h
  obtain ⟨h1, h2, h3, h4⟩ := h
  subst h1 h2 h3 h4
  set q1 := l.dropWhile isChromChar with hq1
  set q2 := q1.dropWhile isSepChar with hq2
  set q3 := q2.dropWhile Char.isDigit with hq3
  set q4 := q3.dropWhile isSepChar with hq4
  set q5 := q4.dropWhile isBaseChar with hq5
  set q6 := q5.dropWhile isSep3Char with hq6
  refine ⟨q1.takeWhile isSepChar, q2.takeWhile Char.isDigit, q3.takeWhile isSepChar,
    q5.takeWhile isSep3Char, q6.dropWhile isBaseChar, ?_, ?_, ?_, List.all_takeWhile,
    ?_, List.all_takeWhile, ?_, ?_, List.all_takeWhile, ?_, List.all_takeWhile,
    ?_, List.all_takeWhile, ?_, List.all_takeWhile, ?_, List.all_takeWhile, rfl⟩
  · rw [hq6, hq5, hq4, hq3, hq2, hq1]
    simp only [List.takeWhile_append_dropWhile]
  · exact fun hh => hg1 (by simp [hh])
  · omega
  · exact fun hh => hg3 (by simp [hh])
  · exact fun hh => hg4 (by simp [hh])
  · omega
  · exact fun hh => hg6 (by simp [hh])
  · exact fun hh => hg7 (by simp [hh])
  · exact fun hh => hg8 (by simp [hh])
  · exact fun hh => hg9 (by simp [hh])

/-- Every list splits as an optional chr literal followed by its stripped
form. -/
theorem chrStripped_decomp (l : List Char) :
    ∃ pre, (pre = [] ∨ pre = ['c', 'h', 'r']) ∧ l = pre ++ chrStripped l := by
  rcases l with _ | ⟨x, _ | ⟨y, _ | ⟨z, t⟩⟩⟩
  · exact ⟨[], Or.inl rfl, rfl⟩
  · exact ⟨[], Or.inl rfl, rfl⟩
  · exact ⟨[], Or.inl rfl, rfl⟩
  · by_cases h : x = 'c' ∧ y = 'h' ∧ z = 'r'
    · obtain ⟨rfl, rfl, rfl⟩ := h
      refine ⟨['c', 'h', 'r'], Or.inr rfl, ?_⟩
      simp [chrStripped]
    · refine ⟨[], Or.inl rfl, ?_⟩
      simp [chrStripped, h]

/-- A list whose head is not the letter c is unchanged by the literal
stripper. -/
theorem chrStripped_cons_ne {x : Char} {t : List Char} (hx : x ≠ 'c') :
    chrStripped (x :: t) = x :: t := by
  rcases t with _ | ⟨y, _ | ⟨z, t⟩⟩
  · rfl
  · rfl
  · have h : ¬ (x = 'c' ∧ y = 'h' ∧ z = 'r') := fun hh => hx hh.1
    simp [chrStripped, h]

/-- VARIANT_RE.match on a decomposed text: the optional literal is
stripped, each token is captured by maximal munch, and the position is the
decimal value of the digit run. -/
theorem parseVariantCore_of_decomp (pre c s1 p s2 r s3 a rest : List Char)
    (hpre : pre = [] ∨ pre = ['c', 'h', 'r'])
    (hc1 : c ≠ []) (hc2 : c.length ≤ 2) (hc3 : c.all isChromChar = true)
    (hs1a : s1 ≠ []) (hs1b : s1.all isSepChar = true)
    (hp1 : p ≠ []) (hp2 : p.length ≤ 9) (hp3 : p.all Char.isDigit = true)
    (hs2a : s2 ≠ []) (hs2b : s2.all isSepChar = true)
    (hr1 : r ≠ []) (hr2 : r.all isBaseChar = true)
    (hs3a : s3 ≠ []) (hs3b : s3.all isSep3Char = true)
    (ha1 : a ≠ []) (ha2 : a.all isBaseChar = true) :
    parseVariantCore (pre ++ c ++ s1 ++ p ++ s2 ++ r ++ s3 ++ a ++ rest)
      = some (c, digitsVal p, r, (a ++ rest).takeWhile isBaseChar) := by
  have hbody := parseAfterChr_decomp c s1 p s2 r s3 a rest hc1 hc2 (all_mem hc3)
    hs1a (all_mem hs1b) hp1 hp2 (all_mem hp3) hs2a (all_mem hs2b) hr1 (all_mem hr2)
    hs3a (all_mem hs3b) ha1 (all_mem ha2)
  unfold parseVariantCore
  have hstrip : chrStripped (pre ++ c ++ s1 ++ p ++ s2 ++ r ++ s3 ++ a ++ rest)
      = c ++ s1 ++ p ++ s2 ++ r ++ s3 ++ a ++ rest := by
    rcases hpre with rfl | rfl
    · obtain ⟨x, t, rfl⟩ := List.exists_cons_of_ne_nil hc1
      have hx : isChromChar x = true := all_mem hc3 x (List.mem_cons_self x t)
      have hshape : ([] : List Char) ++ (x :: t) ++ s1 ++ p ++ s2 ++ r ++ s3 ++ a ++ rest
          = x :: (t ++ s1 ++ p ++ s2 ++ r ++ s3 ++ a ++ rest) := by
        simp
      rw [hshape, chrStripped_cons_ne (chrom_ne_c hx)]
      simp
    · have hshape : ['c', 'h', 'r'] ++ c ++ s1 ++ p ++ s2 ++ r ++ s3 ++ a ++ rest
          = 'c' :: 'h' :: 'r' :: (c ++ s1 ++ p ++ s2 ++ r ++ s3 ++ a ++ rest) := by
        simp
      rw [hshape]
      rfl
  rw [hstrip]
  exact hbody

/-- C9: for every valid variant text, the parser recovers exactly the
chromosome token, the decimal position, the reference allele and the
alternate allele, whatever nonempty separator runs over dash, colon and
whitespace are used at the three positions and whether or not the chr
label is present. -/
theorem parse_variant_separator_independent
    (pre c s1 p s2 r s3 a : List Char) (hpre : pre = [] ∨ pre = ['c', 'h', 'r'])
    (hc1 : c ≠ []) (hc2 : c.length ≤ 2) (hc3 : c.all isChromChar = true)
    (hs1a : s1 ≠ []) (hs1b : s1.all isSepChar = true)
    (hp1 : p ≠ []) (hp2 : p.length ≤ 9) (hp3 : p.all Char.isDigit = true)
    (hs2a : s2 ≠ []) (hs2b : s2.all isSepChar = true)
    (hr1 : r ≠ []) (hr2 : r.all isBaseChar = true)
    (hs3a : s3 ≠ []) (hs3b : s3.all isSepChar = true)
    (ha1 : a ≠ []) (ha2 : a.all isBaseChar = true) :
    parse_variant (String.mk (pre ++ c ++ s1 ++ p ++ s2 ++ r ++ s3 ++ a))
      = some (String.mk c, digitsVal p, String.mk r, String.mk a) := by
  have hs3b' : s3.all isSep3Char = true :=
    List.all_eq_true.mpr fun x hx => by
      simpa using sep_imp_sep3 (all_mem hs3b x hx)
  have hcore := parseVariantCore_of_decomp pre c s1 p s2 r s3 a []
    hpre hc1 hc2 hc3 hs1a hs1b hp1 hp2 hp3 hs2a hs2b hr1 hr2 hs3a hs3b' ha1 ha2
  rw [List.append_nil] at hcore
  have htail : (a ++ ([] : List Char)).takeWhile isBaseChar = a := by
    rw [List.append_nil]
    exact takeWhile_of_all (all_mem ha2)
  rw [htail] at hcore
  unfold parse_variant
  rw [show (String.mk (pre ++ c ++ s1 ++ p ++ s2 ++ r ++ s3 ++ a)).data
      = pre ++ c ++ s1 ++ p ++ s2 ++ r ++ s3 ++ a from rfl, hcore]

/-- Witness for C9: the dash-separated example parses to its components. -/
theorem parse_variant_separator_independent_witness :
    parse_variant (String.mk ([] ++ ['8'] ++ ['-'] ++
        ['1', '4', '0', '3', '0', '0', '6', '1', '5'] ++ ['-'] ++ ['C'] ++ ['-'] ++ ['G']))
      = some (String.mk ['8'], digitsVal ['1', '4', '0', '3', '0', '0', '6', '1', '5'],
          String.mk ['C'], String.mk ['G']) :=
  parse_variant_separator_independent [] ['8'] ['-']
    ['1', '4', '0', '3', '0', '0', '6', '1', '5'] ['-'] ['C'] ['-'] ['G']
    (Or.inl rfl) (by decide) (by decide) (by decide) (by decide) (by decide)
    (by decide) (by decide) (by decide) (by decide) (by decide) (by decide)
    (by decide) (by decide) (by decide) (by decide) (by decide)

/-- C6 counterexample: the parser accepts the chromosome token 99, which
is not one of the chromosome names 1-22, X, Y, M, T/MT the claim allows,
so the parser does not fail on every string outside that form. -/
theorem parse_variant_chrom_token_counterexample :
    parse_variant "99-123-A-C" = some ("99", 123, "A", "C") ∧
      ("99" : String) ∉ specChromosomeTokens := by
  constructor
  · rfl
  · decide

/-- C6 amended: the parser succeeds exactly on the texts with a prefix
matching VARIANT_RE, whose chromosome token is any one or two characters
over digits and X, Y, M, T, t (not only real chromosome names), whose
position is any run of one to nine digits (zero included), and with
arbitrary trailing text allowed after the alternate allele. -/
theorem parse_variant_success_iff (s : String) :
    (parse_variant s).isSome = true ↔ MatchesVariantRE s := by
  constructor
  · intro h
    unfold parse_variant at h
    cases hc : parseVariantCore s.data with
    | none => rw [hc] at h; simp at h
    | some q =>
      obtain ⟨c, n, r, a⟩ := q
      have hbody : parseAfterChr (chrStripped s.data) = some (c, n, r, a) := hc
      obtain ⟨s1, p, s2, s3, rest, heq, hc1, hc2, hc3, hs1a, hs1b, hp1, hp2, hp3,
        hs2a, hs2b, hr1, hr2, hs3a, hs3b, ha1, ha2, hn⟩ := parseAfterChr_some_decomp hbody
      obtain ⟨pre, hpre, hsplit⟩ := chrStripped_decomp s.data
      refine ⟨pre, c, s1, p, s2, r, s3, a, rest, ?_, hpre, ⟨hc1, hc2, hc3⟩,
        ⟨hs1a, hs1b⟩, ⟨hp1, hp2, hp3⟩, ⟨hs2a, hs2b⟩, ⟨hr1, hr2⟩, ⟨hs3a, hs3b⟩, ⟨ha1, ha2⟩⟩
      rw [hsplit, heq]
      simp [List.append_assoc]
  · rintro ⟨pre, c, s1, p, s2, r, s3, a, rest, heq, hpre, ⟨hc1, hc2, hc3⟩,
      ⟨hs1a, hs1b⟩, ⟨hp1, hp2, hp3⟩, ⟨hs2a, hs2b⟩, ⟨hr1, hr2⟩, ⟨hs3a, hs3b⟩, ⟨ha1, ha2⟩⟩
    have hcore := parseVariantCore_of_decomp pre c s1 p s2 r s3 a rest
      hpre hc1 hc2 hc3 hs1a hs1b hp1 hp2 hp3 hs2a hs2b hr1 hr2 hs3a hs3b ha1 ha2
    have hdata : parseVariantCore s.data
        = some (c, digitsVal p, r, (a ++ rest).takeWhile isBaseChar) := by
      rw [heq]
      exact hcore
    unfold parse_variant
    rw [hdata]
    rfl

/-- The default element of getD is irrelevant on an index that exists. -/
theorem getD_of_getElem? {l : List String} {n : Nat} {x : String} (h : l[n]? = some x) :
    l[n]?.getD "" = x := by
  rw [h]
  rfl

/-- C4: a parsed variant whose alleles both have length greater than one is
rejected with the complex-indel error, and neither the cache nor the model
scorer influences the outcome in any way. -/
theorem process_variant_complex_indel_rejected
    (fetch1 fetch2 : CacheFetch) (scorer1 scorer2 : ModelScorer)
    (variant genome_version : String) (distance mask : Int)
    (chrom : String) (pos : Nat) (ref alt : String)
    (hp : parse_variant variant = some (chrom, pos, ref, alt))
    (h1 : 1 < ref.length) (h2 : 1 < alt.length) :
    process_variant fetch1 scorer1 variant genome_version distance mask
      = some (.err variant ("ERROR: SpliceAI does not currently support complex InDels like "
          ++ chrom ++ "-" ++ natRepr pos ++ "-" ++ ref ++ "-" ++ alt))
    ∧ process_variant fetch1 scorer1 variant genome_version distance mask
      = process_variant fetch2 scorer2 variant genome_version distance mask := by
  have key : ∀ (f : CacheFetch) (sc : ModelScorer),
      process_variant f sc variant genome_version distance mask
        = some (.err variant ("ERROR: SpliceAI does not currently support complex InDels like "
            ++ chrom ++ "-" ++ natRepr pos ++ "-" ++ ref ++ "-" ++ alt)) := by
    intro f sc
    simp only [process_variant, hp]
    rw [if_pos ⟨h1, h2⟩]
  exact ⟨key fetch1 scorer1, (key fetch1 scorer1).trans (key fetch2 scorer2).symm⟩

/-- Witness for C4 at the specification example with alleles AT and GC. -/
theorem process_variant_complex_indel_rejected_witness :
    process_variant (fun _ _ _ _ => .error ()) (fun _ _ _ _ => .error "scorer")
        "8-123-AT-GC" "38" 50 0
      = some (.err "8-123-AT-GC"
          ("ERROR: SpliceAI does not currently support complex InDels like "
            ++ "8" ++ "-" ++ natRepr 123 ++ "-" ++ "AT" ++ "-" ++ "GC")) :=
  (process_variant_complex_indel_rejected (fun _ _ _ _ => .error ())
    (fun _ _ _ _ => .ok ([], false)) (fun _ _ _ _ => .error "scorer")
    (fun _ _ _ _ => .ok [])
    "8-123-AT-GC" "38" 50 0 "8" 123 "AT" "GC" (by decide) (by decide) (by decide)).1

/-- Reduction of process_variant when the cache phase produced no scores:
resolution continues on the model fallback. -/
theorem process_variant_cache_empty
    (fetch : CacheFetch) (scorer : ModelScorer) (variant genome_version : String)
    (mask : Int) (chrom : String) (pos : Nat) (ref alt : String) (src : Option String)
    (hp : parse_variant variant = some (chrom, pos, ref, alt))
    (hcx : ¬ (1 < ref.length ∧ 1 < alt.length))
    (hlen : ref.length ≤ 5 ∨ alt.length ≤ 2)
    (hcp : cache_phase fetch (derive_key mask ref alt genome_version) chrom pos ref alt
      = ([], src)) :
    process_variant fetch scorer variant genome_version SPLICEAI_DEFAULT_DISTANCE mask
      = model_path scorer variant genome_version SPLICEAI_DEFAULT_DISTANCE mask
          chrom pos ref alt := by
  simp [process_variant, hp, hcx, hlen, hcp]

/-- Reduction of process_variant when the cache phase collected scores:
they are stripped and returned with the source the phase chose, and the
model scorer is never consulted. -/
theorem process_variant_cache_scores
    (fetch : CacheFetch) (scorer : ModelScorer) (variant genome_version : String)
    (mask : Int) (chrom : String) (pos : Nat) (ref alt : String)
    (scores : List String) (src : Option String) (hne : scores ≠ [])
    (hp : parse_variant variant = some (chrom, pos, ref, alt))
    (hcx : ¬ (1 < ref.length ∧ 1 < alt.length))
    (hlen : ref.length ≤ 5 ∨ alt.length ≤ 2)
    (hcp : cache_phase fetch (derive_key mask ref alt genome_version) chrom pos ref alt
      = (scores, src)) :
    process_variant fetch scorer variant genome_version SPLICEAI_DEFAULT_DISTANCE mask
      = (mapStrip scores).map
          (fun st => .ok variant genome_version chrom pos ref alt st src) := by
  simp [process_variant, hp, hcx, hlen, hcp, hne]

/-- Characterisation of one loop step on a line that raises nothing: the
info field is collected exactly when the record is an exact match. -/
theorem cacheLine_char (chrom : String) (pos : Nat) (ref alt line : String)
    (h : cacheLineOk chrom pos ref alt line = true) :
    cacheLine chrom pos ref alt line =
      .ok (if isExactMatch chrom pos ref alt line then
        some ((pySplitTab line).getD 7 "") else none) := by
  by_cases h0 : (pySplitTab line)[0]?.getD "" = chrom
  case neg =>
    simp [cacheLine, isExactMatch, h0]
  case pos =>
    cases hg1 : (pySplitTab line)[1]? with
    | none =>
      exfalso
      simp [cacheLineOk, cacheLine, h0, hg1] at h
    | some f1 =>
      have hd1 : (pySplitTab line)[1]?.getD "" = f1 := getD_of_getElem? hg1
      cases hpy : pyInt f1 with
      | none =>
        exfalso
        simp [cacheLineOk, cacheLine, h0, hg1, hpy] at h
      | some n =>
        by_cases hn : n = (pos : Int)
        case neg =>
          have hmm : ¬ (pyInt ((pySplitTab line)[1]?.getD "") = some (pos : Int)) := by
            rw [hd1, hpy]
            simpa using hn
          simp [cacheLine, isExactMatch, h0, hg1, hpy, hn, hmm]
        case pos =>
          subst hn
          cases hg3 : (pySplitTab line)[3]? with
          | none =>
            exfalso
            simp [cacheLineOk, cacheLine, h0, hg1, hpy, hg3] at h
          | some f3 =>
            have hd3 : (pySplitTab line)[3]?.getD "" = f3 := getD_of_getElem? hg3
            by_cases h3 : f3 = ref
            case neg =>
              have hmm : ¬ ((pySplitTab line)[3]?.getD "" = ref) := by rw [hd3]; exact h3
              simp [cacheLine, isExactMatch, h0, hg1, hpy, hg3, h3, hmm]
            case pos =>
              cases hg4 : (pySplitTab line)[4]? with
              | none =>
                exfalso
                simp [cacheLineOk, cacheLine, h0, hg1, hpy, hg3, h3, hg4] at h
              | some f4 =>
                have hd4 : (pySplitTab line)[4]?.getD "" = f4 := getD_of_getElem? hg4
                by_cases h4 : f4 = alt
                case neg =>
                  have hmm : ¬ ((pySplitTab line)[4]?.getD "" = alt) := by rw [hd4]; exact h4
                  simp [cacheLine, isExactMatch, h0, hg1, hpy, hg3, h3, hg4, h4, hmm]
                case pos =>
                  cases hg7 : (pySplitTab line)[7]? with
                  | none =>
                    exfalso
                    simp [cacheLineOk, cacheLine, h0, hg1, hpy, hg3, h3, hg4, h4, hg7] at h
                  | some f7 =>
                    have hd7 : (pySplitTab line)[7]?.getD "" = f7 := getD_of_getElem? hg7
                    have hex : isExactMatch chrom pos ref alt line = true := by
                      simp [isExactMatch, h0, hd1, hpy, hd3, h3, hd4, h4]
                    simp [cacheLine, h0, hg1, hpy, hg3, h3, hg4, h4, hg7, hex, hd7]

/-- The loop over exception-free lines collects exactly the info fields of
the exact matches, in order, and reports no exception. -/
theorem cacheLoop_clean (chrom : String) (pos : Nat) (ref alt : String)
    (lines : List String) (acc : List String)
    (h : ∀ l ∈ lines, cacheLineOk chrom pos ref alt l = true) :
    cacheLoop chrom pos ref alt acc lines
      = (acc ++ exactMatchScores chrom pos ref alt lines, false) := by
  induction lines generalizing acc with
  | nil => simp [cacheLoop, exactMatchScores]
  | cons line rest ih =>
    have hline := cacheLine_char chrom pos ref alt line (h line (List.mem_cons_self line rest))
    have hrest : ∀ l ∈ rest, cacheLineOk chrom pos ref alt l = true :=
      fun l hl => h l (List.mem_cons_of_mem line hl)
    by_cases hm : isExactMatch chrom pos ref alt line = true
    · rw [if_pos hm] at hline
      simp only [cacheLoop, hline]
      rw [ih (acc ++ [(pySplitTab line).getD 7 ""]) hrest]
      simp [exactMatchScores, List.filter_cons, hm]
    · rw [if_neg hm] at hline
      simp only [cacheLoop, hline]
      rw [ih acc hrest]
      simp only [Bool.not_eq_true] at hm
      simp [exactMatchScores, List.filter_cons, hm]

/-- C1: with the default distance and an exception-free fetch over the
window around the position, only the exactly matching records contribute;
at least one exact match gives the lookup result built from exactly those
records, and no exact match sends resolution to the model path, which
reports source computed on scorer success. -/
theorem process_variant_cache_exact_match
    (fetch : CacheFetch) (scorer : ModelScorer) (variant genome_version : String)
    (mask : Int) (chrom : String) (pos : Nat) (ref alt : String) (lines : List String)
    (hp : parse_variant variant = some (chrom, pos, ref, alt))
    (hcx : ¬ (1 < ref.length ∧ 1 < alt.length))
    (hlen : ref.length ≤ 5 ∨ alt.length ≤ 2)
    (hf : fetch (derive_key mask ref alt genome_version) chrom ((pos : Int) - 1)
        ((pos : Int) + 1) = .ok (lines, false))
    (hwf : ∀ l ∈ lines, cacheLineOk chrom pos ref alt l = true) :
    (∀ stripped, exactMatchScores chrom pos ref alt lines ≠ [] →
        mapStrip (exactMatchScores chrom pos ref alt lines) = some stripped →
        process_variant fetch scorer variant genome_version SPLICEAI_DEFAULT_DISTANCE mask
          = some (.ok variant genome_version chrom pos ref alt stripped (some "lookup")))
    ∧ (exactMatchScores chrom pos ref alt lines = [] →
        process_variant fetch scorer variant genome_version SPLICEAI_DEFAULT_DISTANCE mask
          = model_path scorer variant genome_version SPLICEAI_DEFAULT_DISTANCE mask
              chrom pos ref alt)
    ∧ (∀ ms stripped, exactMatchScores chrom pos ref alt lines = [] →
        scorer ⟨chrom, pos, ref, [alt]⟩ genome_version SPLICEAI_DEFAULT_DISTANCE mask = .ok ms →
        ms ≠ [] → mapStrip ms = some stripped →
        process_variant fetch scorer variant genome_version SPLICEAI_DEFAULT_DISTANCE mask
          = some (.ok variant genome_version chrom pos ref alt stripped (some "computed"))) := by
  have hcp : cache_phase fetch (derive_key mask ref alt genome_version) chrom pos ref alt
      = (exactMatchScores chrom pos ref alt lines,
         if (exactMatchScores chrom pos ref alt lines).isEmpty then none else some "lookup") := by
    unfold cache_phase
    rw [hf]
    simp [cacheLoop_clean chrom pos ref alt lines [] hwf]
  have h2 : exactMatchScores chrom pos ref alt lines = [] →
      process_variant fetch scorer variant genome_version SPLICEAI_DEFAULT_DISTANCE mask
        = model_path scorer variant genome_version SPLICEAI_DEFAULT_DISTANCE mask
            chrom pos ref alt := by
    intro he
    rw [he] at hcp
    exact process_variant_cache_empty fetch scorer variant genome_version mask
      chrom pos ref alt _ hp hcx hlen (by simpa using hcp)
  refine ⟨?_, h2, ?_⟩
  · intro stripped hne hstrip
    have hee : (exactMatchScores chrom pos ref alt lines).isEmpty = false := by
      simpa [List.isEmpty_iff] using hne
    have hcp2 : cache_phase fetch (derive_key mask ref alt genome_version) chrom pos ref alt
        = (exactMatchScores chrom pos ref alt lines, some "lookup") := by
      rw [hcp, hee]
      simp
    rw [process_variant_cache_scores fetch scorer variant genome_version mask
      chrom pos ref alt _ _ hne hp hcx hlen hcp2, hstrip]
    rfl
  · intro ms stripped he hsc hms hstrip
    rw [h2 he]
    unfold model_path
    rw [hsc]
    simp [hms, hstrip]

/-- Witness for C1: one exactly matching record and one overlapping record
with a different alternate allele give the lookup result built from the
exact match only. -/
theorem process_variant_cache_exact_match_witness :
    process_variant
        (fun _ _ _ _ => Except.ok (["8\t140300615\t.\tC\tG\t.\t.\tSpliceAI=G|GENE|0.01",
          "8\t140300615\t.\tC\tT\t.\t.\tSpliceAI=T|GENE|0.99"], false))
        (fun _ _ _ _ => Except.error "unused") "8-140300615-C-G" "38"
        SPLICEAI_DEFAULT_DISTANCE 0
      = some (.ok "8-140300615-C-G" "38" "8" 140300615 "C" "G" ["GENE|0.01"]
          (some "lookup")) :=
  (process_variant_cache_exact_match
    (fun _ _ _ _ => Except.ok (["8\t140300615\t.\tC\tG\t.\t.\tSpliceAI=G|GENE|0.01",
      "8\t140300615\t.\tC\tT\t.\t.\tSpliceAI=T|GENE|0.99"], false))
    (fun _ _ _ _ => Except.error "unused") "8-140300615-C-G" "38" 0 "8" 140300615 "C" "G"
    ["8\t140300615\t.\tC\tG\t.\t.\tSpliceAI=G|GENE|0.01",
      "8\t140300615\t.\tC\tT\t.\t.\tSpliceAI=T|GENE|0.99"]
    (by decide) (by decide) (by decide) rfl (by decide)).1
    ["GENE|0.01"] (by decide) (by decide)

/-- C5 counterexample: a fetch whose iterator raises after yielding one
exactly matching record is caught, but resolution does not fall through to
the model path: the partial scores come back with a null source.  The
scorer used here would turn any invocation into an error result with a
recognisable message, and the second conjunct shows that the model path
would indeed have produced that error result, so the ok outcome proves
the fallback never ran even though a fetch exception occurred. -/
theorem cache_exception_partial_scores_counterexample :
    process_variant
        (fun _ _ _ _ => Except.ok (["8\t123\t.\tA\tC\t.\t.\tSpliceAI=C|AL|0.1"], true))
        (fun _ _ _ _ => Except.error "model invoked") "8-123-A-C" "38" 50 0
      = some (.ok "8-123-A-C" "38" "8" 123 "A" "C" ["AL|0.1"] none)
    ∧ model_path (fun _ _ _ _ => Except.error "model invoked") "8-123-A-C" "38" 50 0
        "8" 123 "A" "C"
      = some (.err "8-123-A-C" "ERROR: model invoked") := by
  constructor
  · decide
  · decide

/-- C5 amended: every exception raised during a cache fetch is caught and
never produces an error result by itself; when no exact-match scores were
collected before the exception, resolution proceeds to the model-scorer
fallback within the same request; when some scores were already
collected, they are returned directly with a null source and the fallback
is not invoked. -/
theorem cache_exception_fallback_amended
    (fetch : CacheFetch) (scorer : ModelScorer) (variant genome_version : String)
    (mask : Int) (chrom : String) (pos : Nat) (ref alt : String)
    (hp : parse_variant variant = some (chrom, pos, ref, alt))
    (hcx : ¬ (1 < ref.length ∧ 1 < alt.length))
    (hlen : ref.length ≤ 5 ∨ alt.length ≤ 2) :
    (fetch (derive_key mask ref alt genome_version) chrom ((pos : Int) - 1) ((pos : Int) + 1)
        = .error () →
      process_variant fetch scorer variant genome_version SPLICEAI_DEFAULT_DISTANCE mask
        = model_path scorer variant genome_version SPLICEAI_DEFAULT_DISTANCE mask
            chrom pos ref alt)
    ∧ (∀ lines interrupted scores,
        fetch (derive_key mask ref alt genome_version) chrom ((pos : Int) - 1) ((pos : Int) + 1)
          = .ok (lines, interrupted) →
        (cacheLoop chrom pos ref alt [] lines = (scores, true) ∨
          (cacheLoop chrom pos ref alt [] lines = (scores, false) ∧ interrupted = true)) →
        ((scores = [] →
          process_variant fetch scorer variant genome_version SPLICEAI_DEFAULT_DISTANCE mask
            = model_path scorer variant genome_version SPLICEAI_DEFAULT_DISTANCE mask
                chrom pos ref alt)
         ∧ (scores ≠ [] →
          process_variant fetch scorer variant genome_version SPLICEAI_DEFAULT_DISTANCE mask
            = (mapStrip scores).map
                (fun st => .ok variant genome_version chrom pos ref alt st none)))) := by
  constructor
  · intro hferr
    have hcp : cache_phase fetch (derive_key mask ref alt genome_version) chrom pos ref alt
        = ([], none) := by
      unfold cache_phase
      rw [hferr]
    exact process_variant_cache_empty fetch scorer variant genome_version mask
      chrom pos ref alt none hp hcx hlen hcp
  · intro lines interrupted scores hf hloop
    have hcp : cache_phase fetch (derive_key mask ref alt genome_version) chrom pos ref alt
        = (scores, none) := by
      unfold cache_phase
      rw [hf]
      rcases hloop with hl | ⟨hl, hint⟩
      · simp [hl]
      · subst hint
        simp [hl]
    constructor
    · intro he
      rw [he] at hcp
      exact process_variant_cache_empty fetch scorer variant genome_version mask
        chrom pos ref alt none hp hcx hlen hcp
    · intro hne
      exact process_variant_cache_scores fetch scorer variant genome_version mask
        chrom pos ref alt scores none hne hp hcx hlen hcp

/-- Witness for the amended C5: a fetch that raises immediately sends the
concrete variant down the model path. -/
theorem cache_exception_fallback_amended_witness :
    process_variant (fun _ _ _ _ => Except.error ())
        (fun _ _ _ _ => Except.ok ["C|X|0.1"]) "8-123-A-C" "38"
        SPLICEAI_DEFAULT_DISTANCE 0
      = model_path (fun _ _ _ _ => Except.ok ["C|X|0.1"]) "8-123-A-C" "38"
          SPLICEAI_DEFAULT_DISTANCE 0 "8" 123 "A" "C" :=
  (cache_exception_fallback_amended (fun _ _ _ _ => Except.error ())
    (fun _ _ _ _ => Except.ok ["C|X|0.1"]) "8-123-A-C" "38" 0 "8" 123 "A" "C"
    (by decide) (by decide) (by decide)).1 rfl

/-- Membership in the whitespace class, spelled out. -/
theorem space_char_cases {c : Char} (h : isPySpace c = true) :
    c = ' ' ∨ c = '\t' ∨ c = '\n' ∨ c = '\r' ∨ c = '\x0b' ∨ c = '\x0c' := by
  simpa [isPySpace, or_assoc] using h

/-- A whitespace character is not a digit. -/
theorem space_not_digit {c : Char} (h : isPySpace c = true) : c.isDigit = false := by
  rcases space_char_cases h with rfl | rfl | rfl | rfl | rfl | rfl <;> decide

/-- A digit is not whitespace. -/
theorem digit_not_space {c : Char} (h : c.isDigit = true) : isPySpace c = false := by
  cases hs : isPySpace c
  · rfl
  · rw [space_not_digit hs] at h; cases h

/-- A digit is not a plus sign. -/
theorem digit_ne_plus {c : Char} (h : c.isDigit = true) : ¬ c = '+' := by
  intro hc
  rw [hc] at h
  exact absurd h (by decide)

/-- A digit is not a minus sign. -/
theorem digit_ne_minus {c : Char} (h : c.isDigit = true) : ¬ c = '-' := by
  intro hc
  rw [hc] at h
  exact absurd h (by decide)

/-- A list none of whose elements satisfies the predicate is unchanged by
dropWhile. -/
theorem dropWhile_all_false {p : Char → Bool} :
    ∀ {l : List Char}, (∀ c ∈ l, p c = false) → l.dropWhile p = l
  | [], _ => rfl
  | c :: t, h => by
    rw [List.dropWhile_cons, h c (List.mem_cons_self c t)]
    simp

/-- Stripping does nothing to a list without whitespace. -/
theorem pyStripChars_no_space {l : List Char} (h : ∀ c ∈ l, isPySpace c = false) :
    pyStripChars l = l := by
  unfold pyStripChars
  rw [dropWhile_all_false h]
  rw [dropWhile_all_false (fun c hc => h c (List.mem_reverse.mp hc))]
  exact List.reverse_reverse l

/-- The digit renderer maps zero to the empty digit list at any fuel. -/
theorem natReprAux_zero (fuel : Nat) : natReprAux fuel 0 = [] := by
  cases fuel <;> rfl

/-- A single rendered digit is a digit character. -/
theorem digitToChar_isDigit {d : Nat} (h : d < 10) : (digitToChar d).isDigit = true := by
  interval_cases d <;> decide

/-- Reading a rendered digit back gives the digit. -/
theorem digitToChar_val {d : Nat} (h : d < 10) : (digitToChar d).toNat - 48 = d := by
  interval_cases d <;> decide

/-- With enough fuel, the rendering of a positive number is a nonempty
string of digit characters. -/
theorem natReprAux_digits : ∀ (fuel n : Nat), 0 < n → n ≤ fuel →
    natReprAux fuel n ≠ [] ∧ ∀ c ∈ natReprAux fuel n, c.isDigit = true := by
  intro fuel
  induction fuel with
  | zero => intro n h1 h2; omega
  | succ f ih =>
    intro n h1 h2
    match n, h1 with
    | n + 1, _ =>
      simp only [natReprAux]
      refine ⟨by simp, ?_⟩
      intro c hc
      rw [List.mem_append] at hc
      rcases hc with hc | hc
      · by_cases hq : (n + 1) / 10 = 0
        · rw [hq, natReprAux_zero] at hc
          cases hc
        · have hlt : (n + 1) / 10 < n + 1 := Nat.div_lt_self (Nat.succ_pos n) (by norm_num)
          exact (ih ((n + 1) / 10) (Nat.pos_of_ne_zero hq) (by omega)).2 c hc
      · have hm : c = digitToChar ((n + 1) % 10) := by simpa using hc
        rw [hm]
        exact digitToChar_isDigit (Nat.mod_lt _ (by norm_num))

/-- Folding the decimal accumulator over a rendering recovers the number:
the digits are read back exactly. -/
theorem natReprAux_val : ∀ (fuel n a : Nat), 0 < n → n ≤ fuel →
    (natReprAux fuel n).foldl (fun acc c => acc * 10 + (c.toNat - 48)) a
      = a * 10 ^ (natReprAux fuel n).length + n := by
  intro fuel
  induction fuel with
  | zero => intro n a h1 h2; omega
  | succ f ih =>
    intro n a h1 h2
    match n, h1 with
    | n + 1, _ =>
      simp only [natReprAux]
      rw [List.foldl_append]
      have hd : (digitToChar ((n + 1) % 10)).toNat - 48 = (n + 1) % 10 :=
        digitToChar_val (Nat.mod_lt _ (by norm_num))
      have hdm : 10 * ((n + 1) / 10) + (n + 1) % 10 = n + 1 := Nat.div_add_mod (n + 1) 10
      by_cases hq : (n + 1) / 10 = 0
      · rw [hq, natReprAux_zero]
        simp only [List.foldl_nil, List.foldl_cons, List.nil_append, List.length_cons,
          List.length_nil, hd]
        have hsmall : (n + 1) % 10 = n + 1 := by omega
        rw [hsmall]
        ring
      · have hlt : (n + 1) / 10 < n + 1 := Nat.div_lt_self (Nat.succ_pos n) (by norm_num)
        rw [ih ((n + 1) / 10) a (Nat.pos_of_ne_zero hq) (by omega)]
        simp only [List.foldl_cons, List.foldl_nil, List.length_append, List.length_cons,
          List.length_nil, hd]
        calc (a * 10 ^ (natReprAux f ((n + 1) / 10)).length + (n + 1) / 10) * 10 + (n + 1) % 10
            = a * (10 ^ (natReprAux f ((n + 1) / 10)).length * 10)
                + (10 * ((n + 1) / 10) + (n + 1) % 10) := by ring
          _ = a * 10 ^ ((natReprAux f ((n + 1) / 10)).length + 1) + (n + 1) := by
              rw [hdm, pow_succ]

/-- Python int() reads natRepr back: rendering a position and converting
it with int() round-trips. -/
theorem pyInt_natRepr (n : Nat) : pyInt (natRepr n) = some (n : Int) := by
  by_cases h0 : n = 0
  · subst h0; decide
  · have hpos : 0 < n := Nat.pos_of_ne_zero h0
    obtain ⟨hne, hdig⟩ := natReprAux_digits n n hpos le_rfl
    obtain ⟨c0, t0, he⟩ := List.exists_cons_of_ne_nil hne
    have hdig0 : c0.isDigit = true := hdig c0 (he ▸ List.mem_cons_self c0 t0)
    have hstrip : pyStripChars (natRepr n).data = natReprAux n n := by
      have hdata : (natRepr n).data = natReprAux n n := by
        unfold natRepr
        rw [if_neg h0]
      rw [hdata]
      exact pyStripChars_no_space (fun c hc => digit_not_space (hdig c hc))
    have hdigall : pyIntDigits (c0 :: t0) = some (digitsVal (c0 :: t0)) := by
      unfold pyIntDigits
      rw [if_neg (by simp)]
      rw [if_pos (List.all_eq_true.mpr (fun c hc => by
        simpa using hdig c (he ▸ hc)))]
    have hval : digitsVal (c0 :: t0) = n := by
      have := natReprAux_val n n 0 hpos le_rfl
      rw [he] at this
      simpa [digitsVal] using this
    unfold pyInt
    rw [hstrip, he]
    simp [digit_ne_plus hdig0, digit_ne_minus hdig0, hdigall, hval]

/-- Splitting never produces the empty field list. -/
theorem pySplitCh_ne_nil (sep : Char) (l : List Char) : pySplitCh sep l ≠ [] := by
  cases l with
  | nil => simp [pySplitCh]
  | cons c t =>
    simp only [pySplitCh]
    cases pySplitCh sep t with
    | nil => simp
    | cons f fs => by_cases hc : c = sep <;> simp [hc]

/-- Splitting a list that starts with the separator emits a leading empty
field. -/
theorem pySplitCh_cons_sep (sep : Char) (ys : List Char) :
    pySplitCh sep (sep :: ys) = [] :: pySplitCh sep ys := by
  simp only [pySplitCh]
  cases h : pySplitCh sep ys with
  | nil => exact absurd h (pySplitCh_ne_nil sep ys)
  | cons f fs => simp

/-- Splitting emits a separator-free block as one field. -/
theorem pySplitCh_append {sep : Char} {xs ys : List Char} (h : ∀ c ∈ xs, ¬ c = sep) :
    pySplitCh sep (xs ++ sep :: ys) = xs :: pySplitCh sep ys := by
  induction xs with
  | nil => simpa using pySplitCh_cons_sep sep ys
  | cons x t ih =>
    have hx : ¬ x = sep := h x (List.mem_cons_self x t)
    have ht := ih (fun c hc => h c (List.mem_cons_of_mem x hc))
    simp only [List.cons_append, pySplitCh, List.append_eq]
    rw [ht]
    simp [hx]

/-- The singleton-field instance of the block lemma. -/
theorem pySplitCh_single {sep c : Char} (h : ¬ c = sep) (ys : List Char) :
    pySplitCh sep (c :: sep :: ys) = [c] :: pySplitCh sep ys := by
  have h2 : pySplitCh sep ([c] ++ sep :: ys) = [c] :: pySplitCh sep ys :=
    pySplitCh_append (by simpa using h)
  simpa using h2

/-- A separator-free list is one single field. -/
theorem pySplitCh_no_sep {sep : Char} {xs : List Char} (h : ∀ c ∈ xs, ¬ c = sep) :
    pySplitCh sep xs = [xs] := by
  induction xs with
  | nil => rfl
  | cons x t ih =>
    have hx : ¬ x = sep := h x (List.mem_cons_self x t)
    simp only [pySplitCh, ih (fun c hc => h c (List.mem_cons_of_mem x hc))]
    simp [hx]

/-- A chromosome-class character is not a tab. -/
theorem chrom_ne_tab {c : Char} (h : isChromChar c = true) : ¬ c = '\t' := by
  intro hc
  rw [hc] at h
  exact absurd h (by decide)

/-- A base character is not a tab. -/
theorem base_ne_tab {c : Char} (h : isBaseChar c = true) : ¬ c = '\t' := by
  intro hc
  rw [hc] at h
  exact absurd h (by decide)

/-- A digit is not a tab. -/
theorem digit_ne_tab {c : Char} (h : c.isDigit = true) : ¬ c = '\t' := by
  intro hc
  rw [hc] at h
  exact absurd h (by decide)

/-- The tokens the parser returns stay inside their character classes. -/
theorem parse_variant_classes {s chrom ref alt : String} {pos : Nat}
    (h : parse_variant s = some (chrom, pos, ref, alt)) :
    chrom.data.all isChromChar = true ∧ ref.data.all isBaseChar = true ∧
      alt.data.all isBaseChar = true := by
  unfold parse_variant at h
  cases hc : parseVariantCore s.data with
  | none => rw [hc] at h; cases h
  | some q =>
    obtain ⟨c, n, r, a⟩ := q
    rw [hc] at h
    simp only [Option.some.injEq, Prod.mk.injEq] at h
    obtain ⟨h1, h2, h3, h4⟩ := h
    have hbody : parseAfterChr (chrStripped s.data) = some (c, n, r, a) := hc
    obtain ⟨s1, p, s2, s3, rest, heq, hc1, hc2, hc3, hs1a, hs1b, hp1, hp2, hp3,
      hs2a, hs2b, hr1, hr2, hs3a, hs3b, ha1, ha2, hn⟩ := parseAfterChr_some_decomp hbody
    refine ⟨?_, ?_, ?_⟩
    · rw [← h1]; simpa using hc3
    · rw [← h3]; simpa using hr2
    · rw [← h4]; simpa using ha2

/-- Splitting a well-formed synthetic cache record recovers its eight
fields. -/
theorem pySplitTab_mkCacheLine (chrom : String) (pos : Nat) (ref alt info : String)
    (hc : ∀ c ∈ chrom.data, ¬ c = '\t') (hr : ∀ c ∈ ref.data, ¬ c = '\t')
    (ha : ∀ c ∈ alt.data, ¬ c = '\t') (hi : ∀ c ∈ info.data, ¬ c = '\t') :
    pySplitTab (mkCacheLine chrom pos ref alt info)
      = [chrom, natRepr pos, ".", ref, alt, ".", ".", info] := by
  have hposd : ∀ c ∈ (natRepr pos).data, ¬ c = '\t' := by
    intro c hcm
    by_cases h0 : pos = 0
    · have hdz : (natRepr 0).data = ['0'] := by decide
      rw [h0, hdz] at hcm
      have : c = '0' := by simpa using hcm
      rw [this]; decide
    · have hdata : (natRepr pos).data = natReprAux pos pos := by
        unfold natRepr; rw [if_neg h0]
      rw [hdata] at hcm
      exact digit_ne_tab
        ((natReprAux_digits pos pos (Nat.pos_of_ne_zero h0) le_rfl).2 c hcm)
  have hsplit : pySplitCh '\t' (mkCacheLine chrom pos ref alt info).data
      = [chrom.data, (natRepr pos).data, ['.'], ref.data, alt.data, ['.'], ['.'],
         info.data] := by
    show pySplitCh '\t' (chrom.data ++ '\t' :: (natRepr pos).data ++ '\t' :: '.' :: '\t'
      :: ref.data ++ '\t' :: alt.data ++ '\t' :: '.' :: '\t' :: '.' :: '\t' :: info.data) = _
    simp only [List.append_assoc, List.cons_append]
    rw [pySplitCh_append hc, pySplitCh_append hposd, pySplitCh_single (by decide),
      pySplitCh_append hr, pySplitCh_append ha, pySplitCh_single (by decide),
      pySplitCh_single (by decide), pySplitCh_no_sep hi]
  unfold pySplitTab
  rw [hsplit]
  simp [mk_data]

/-- C3: the score cache is consulted exactly when the requested distance is
the default 50 and the allele lengths satisfy the heuristic.  When the
condition fails the result never depends on the cache and always equals
the model path; when it holds, two caches can be told apart, so the cache
is really consulted. -/
theorem process_variant_cache_consulted_iff
    (scorer : ModelScorer) (variant genome_version : String) (distance mask : Int)
    (chrom : String) (pos : Nat) (ref alt : String)
    (hp : parse_variant variant = some (chrom, pos, ref, alt))
    (hcx : ¬ (1 < ref.length ∧ 1 < alt.length)) :
    (¬ ((ref.length ≤ 5 ∨ alt.length ≤ 2) ∧ distance = SPLICEAI_DEFAULT_DISTANCE) →
      ∀ fetch1 fetch2 : CacheFetch,
        process_variant fetch1 scorer variant genome_version distance mask
          = model_path scorer variant genome_version distance mask chrom pos ref alt
        ∧ process_variant fetch1 scorer variant genome_version distance mask
          = process_variant fetch2 scorer variant genome_version distance mask)
    ∧ (((ref.length ≤ 5 ∨ alt.length ≤ 2) ∧ distance = SPLICEAI_DEFAULT_DISTANCE) →
      ∃ fetch1 fetch2 : CacheFetch,
        process_variant fetch1 scorer variant genome_version distance mask
          ≠ process_variant fetch2 scorer variant genome_version distance mask) := by
  constructor
  · intro hno fetch1 fetch2
    have key : ∀ f : CacheFetch, process_variant f scorer variant genome_version distance mask
        = model_path scorer variant genome_version distance mask chrom pos ref alt := by
      intro f
      simp [process_variant, hp, hcx, hno]
    exact ⟨key fetch1, (key fetch1).trans (key fetch2).symm⟩
  · rintro ⟨hlen, rfl⟩
    obtain ⟨hchrom, href, halt⟩ := parse_variant_classes hp
    have hcnt : ∀ c ∈ chrom.data, ¬ c = '\t' := fun c hc => chrom_ne_tab (all_mem hchrom c hc)
    have hrnt : ∀ c ∈ ref.data, ¬ c = '\t' := fun c hc => base_ne_tab (all_mem href c hc)
    have hant : ∀ c ∈ alt.data, ¬ c = '\t' := fun c hc => base_ne_tab (all_mem halt c hc)
    have hfields := pySplitTab_mkCacheLine chrom pos ref alt "SpliceAI=X|Y"
      hcnt hrnt hant (by decide)
    have hline : cacheLine chrom pos ref alt (mkCacheLine chrom pos ref alt "SpliceAI=X|Y")
        = .ok (some "SpliceAI=X|Y") := by
      unfold cacheLine
      rw [hfields]
      simp [pyInt_natRepr pos]
    refine ⟨fun _ _ _ _ => .error (),
      fun _ _ _ _ => .ok ([mkCacheLine chrom pos ref alt "SpliceAI=X|Y"], false), ?_⟩
    have h1 := process_variant_cache_empty (fun _ _ _ _ => .error ()) scorer variant
      genome_version mask chrom pos ref alt none hp hcx hlen rfl
    have hcp2 : cache_phase
        (fun _ _ _ _ => .ok ([mkCacheLine chrom pos ref alt "SpliceAI=X|Y"], false))
        (derive_key mask ref alt genome_version) chrom pos ref alt
        = (["SpliceAI=X|Y"], some "lookup") := by
      unfold cache_phase
      simp [cacheLoop, hline]
    have h2 := process_variant_cache_scores
      (fun _ _ _ _ => .ok ([mkCacheLine chrom pos ref alt "SpliceAI=X|Y"], false))
      scorer variant genome_version mask chrom pos ref alt ["SpliceAI=X|Y"]
      (some "lookup") (by simp) hp hcx hlen hcp2
    rw [h1, h2]
    have hms : mapStrip ["SpliceAI=X|Y"] = some ["Y"] := by decide
    rw [hms]
    unfold model_path
    cases scorer ⟨chrom, pos, ref, [alt]⟩ genome_version SPLICEAI_DEFAULT_DISTANCE mask with
    | error e => simp
    | ok ms =>
      by_cases hmse : ms.isEmpty
      · simp [hmse]
      · simp only [hmse, if_false, Bool.false_eq_true]
        cases mapStrip ms with
        | none => simp
        | some st => simp

/-- Witness for C3: with distance 100 the concrete variant goes down the
model path whatever the cache holds. -/
theorem process_variant_cache_consulted_iff_witness :
    process_variant (fun _ _ _ _ => Except.error ())
        (fun _ _ _ _ => Except.ok ["C|X|0.2"]) "8-123-A-C" "38" 100 0
      = model_path (fun _ _ _ _ => Except.ok ["C|X|0.2"]) "8-123-A-C" "38" 100 0
          "8" 123 "A" "C" :=
  ((process_variant_cache_consulted_iff (fun _ _ _ _ => Except.ok ["C|X|0.2"])
    "8-123-A-C" "38" 100 0 "8" 123 "A" "C" (by decide) (by decide)).1 (by decide)
    (fun _ _ _ _ => Except.error ()) (fun _ _ _ _ => Except.error ())).1

/-- C7 counterexample: the code removes every hash character of the
unmapped reason line, not only the leading ones: on the line with an
interior hash the produced message differs from the one the claim
predicts. -/
theorem liftover_hash_removal_counterexample :
    run_UCSC_liftover_tool "hg19-to-hg38" "chr8" "" "#a#b"
        = .failure "Lift over failed: ab"
    ∧ spec_leading_hash_stripped "#a#b" = "a#b"
    ∧ ("Lift over failed: ab" : String)
        ≠ "Lift over failed: " ++ spec_leading_hash_stripped "#a#b" := by
  refine ⟨by decide, by decide, by decide⟩

/-- C7 amended: a mapped output with fewer than six tab-delimited fields
never yields a success; the transformer fails with the reason computed
from the first line of the unmapped file with every hash character removed
and surrounding whitespace stripped, or with the generic
failed-for-unknown-reasons message when that computed reason is empty (in
particular when the file is empty). -/
theorem liftover_unmapped_failure_amended (hg chrom mapped unmapped : String)
    (hhg : hg = "hg19-to-hg38" ∨ hg = "hg38-to-hg19")
    (hfields : (pySplitTab (String.mk (pyStripChars mapped.data))).length ≤ 5) :
    (∀ ch oc st en sd,
      run_UCSC_liftover_tool hg chrom mapped unmapped ≠ .success ch oc st en sd)
    ∧ run_UCSC_liftover_tool hg chrom mapped unmapped
      = (if String.mk (pyStripChars (removeHashes (firstLineChars unmapped.data))) = "" then
          .failure "Lift over failed for unknown reasons"
        else .failure ("Lift over failed: "
          ++ String.mk (pyStripChars (removeHashes (firstLineChars unmapped.data))))) := by
  have hcond : ¬ (hg ≠ "hg19-to-hg38" ∧ hg ≠ "hg38-to-hg19") := by
    rcases hhg with rfl | rfl <;> simp
  have hflt : ¬ (5 < (pySplitTab (String.mk (pyStripChars mapped.data))).length) := by
    omega
  have hmain : run_UCSC_liftover_tool hg chrom mapped unmapped
      = (if String.mk (pyStripChars (removeHashes (firstLineChars unmapped.data))) = "" then
          .failure "Lift over failed for unknown reasons"
        else .failure ("Lift over failed: "
          ++ String.mk (pyStripChars (removeHashes (firstLineChars unmapped.data))))) := by
    simp only [run_UCSC_liftover_tool]
    rw [if_neg hcond, if_neg hflt]
  refine ⟨?_, hmain⟩
  intro ch oc st en sd
  rw [hmain]
  by_cases hre : String.mk (pyStripChars (removeHashes (firstLineChars unmapped.data))) = ""
  · simp [hre]
  · simp [hre]

/-- Witness for the amended C7: the specification example, an unmapped
reason file holding a hash-prefixed reason, produces that reason in the
failure message. -/
theorem liftover_unmapped_failure_amended_witness :
    run_UCSC_liftover_tool "hg19-to-hg38" "chr8" "" "#Deleted in new"
      = .failure "Lift over failed: Deleted in new" :=
  ((liftover_unmapped_failure_amended "hg19-to-hg38" "chr8" "" "#Deleted in new"
    (Or.inl rfl) (by decide)).2).trans (by decide)

end SpliceAILookup
